import Mathlib

/-
Verification of the rate-limited command dispatcher with timed-restore
scheduling of the vestaboard-mqtt repository.

The embedding mirrors, in Lean 4, the Python sources:
  - src/vestaboard/base.py         (RateLimitMixin: rate gate + bounded queue)
  - src/vestaboard/cloud_client.py (VestaboardClient)
  - src/vestaboard/local_client.py (LocalVestaboardClient)
  - src/mqtt/timers.py             (TimerManager)
  - src/mqtt/bridge.py             (VestaboardMQTTBridge.restore_from_slot)

Timestamps (Python float seconds from time.time()) are modelled as integers
(a discrete model of real time; no claim depends on fractional instants), and
the fractional QUEUE_PROCESSING_DELAY constant is kept exactly as a rational.
Python deque(maxlen=N) keeps the N most recently appended elements, silently
discarding from the opposite (oldest) end.
-/

set_option autoImplicit false

namespace VestaboardMQTT

/-- Semantics of `collections.deque(maxlen := N).append x`: the new element is
appended on the right and, if the deque already holds `N` elements, the
leftmost (oldest) element is silently discarded.  Equivalently, of `q ++ [x]`
only the last `N` elements are kept. -/
def dequeAppend {α : Type} (maxlen : Nat) (q : List α) (x : α) : List α :=
  let q' := q ++ [x]
  q'.drop (q'.length - maxlen)

/-- Operations performed on the message queue of `RateLimitMixin`:
`_queue_message` appends (producer side) and `_process_queue` pops the oldest
element (consumer side, `popleft`, guarded by a non-empty check). -/
inductive QueueOp (α : Type) where
  | enqueue (x : α)
  | dequeue

/-- Effect of a single queue operation on the queue contents: `enqueue` is the
bounded `deque.append`, `dequeue` is `popleft` (drop the oldest; the code only
calls it on a non-empty queue, and on an empty queue nothing is dequeued). -/
def applyQueueOp {α : Type} (maxlen : Nat) (q : List α) : QueueOp α → List α
  | .enqueue x => dequeAppend maxlen q x
  | .dequeue => q.tail

/-- Queue contents after a whole sequence of enqueue/dequeue operations. -/
def applyQueueOps {α : Type} (maxlen : Nat) (ops : List (QueueOp α)) (q : List α) : List α :=
  ops.foldl (applyQueueOp maxlen) q

theorem dequeAppend_length_le {α : Type} (maxlen : Nat) (q : List α) (x : α) :
    (dequeAppend maxlen q x).length ≤ maxlen := by
  simp only [dequeAppend, List.length_drop, List.length_append, List.length_cons]
  omega

theorem applyQueueOp_length_le {α : Type} (maxlen : Nat) (q : List α) (op : QueueOp α)
    (h : q.length ≤ maxlen) : (applyQueueOp maxlen q op).length ≤ maxlen := by
  cases op with
  | enqueue x => exact dequeAppend_length_le maxlen q x
  | dequeue => exact le_trans (List.length_tail q ▸ Nat.sub_le _ _) h

theorem applyQueueOps_length_le {α : Type} (maxlen : Nat) (ops : List (QueueOp α))
    (q : List α) (h : q.length ≤ maxlen) :
    (applyQueueOps maxlen ops q).length ≤ maxlen := by
  induction ops generalizing q with
  | nil => exact h
  | cons op ops ih =>
      exact ih (applyQueueOp maxlen q op) (applyQueueOp_length_le maxlen q op h)

theorem dequeAppend_at_capacity {α : Type} (maxlen : Nat) (hN : 1 ≤ maxlen)
    (q : List α) (x : α) (hq : q.length = maxlen) :
    dequeAppend maxlen q x = q.drop 1 ++ [x] := by
  have h1 : (q ++ [x]).length - maxlen = 1 := by
    simp [List.length_append, hq]
  have h2 : 1 ≤ q.length := hq ▸ hN
  simp only [dequeAppend, h1]
  exact List.drop_append_of_le_length h2

/-- C1: after any sequence of enqueue and dequeue operations starting from a
queue holding at most `N` commands, the queue still holds at most `N`
commands; and an enqueue performed when the queue already holds `N` commands
evicts exactly the oldest command before appending the new one, so the final
contents are all previous commands except the oldest, followed by the new
one. -/
theorem bounded_queue_invariant_and_oldest_eviction {α : Type} (N : Nat) (hN : 1 ≤ N)
    (q₀ : List α) (h₀ : q₀.length ≤ N) (ops : List (QueueOp α)) :
    (applyQueueOps N ops q₀).length ≤ N ∧
      ∀ (q : List α) (x : α), q.length = N →
        dequeAppend N q x = q.drop 1 ++ [x] :=
  ⟨applyQueueOps_length_le N ops q₀ h₀,
   fun q x hq => dequeAppend_at_capacity N hN q x hq⟩

/-- Witness for C1 at capacity 2 with the overflow scenario of the spec
(enqueue A, B, C: A is evicted). -/
theorem bounded_queue_invariant_and_oldest_eviction_witness :
    (applyQueueOps 2 [QueueOp.enqueue 1, QueueOp.enqueue 2, QueueOp.enqueue 3]
        ([] : List Nat)).length ≤ 2 ∧
      dequeAppend 2 [1, 2] 3 = [2, 3] := by
  have h := bounded_queue_invariant_and_oldest_eviction (α := Nat) 2 (by decide)
    [] (by decide) [QueueOp.enqueue 1, QueueOp.enqueue 2, QueueOp.enqueue 3]
  exact ⟨h.1, by have h2 := h.2 [1, 2] 3 (by decide); simpa using h2⟩

/-- Constant `QUEUE_PROCESSING_DELAY = 0.1` from src/vestaboard/constants.py. -/
def QUEUE_PROCESSING_DELAY : ℚ := 1 / 10

/-- State installed by `RateLimitMixin.__init__` (src/vestaboard/base.py):
`rate_limit_seconds`, `last_send_time` (initially `0.0`), the bounded
`message_queue` (a `deque` with `maxlen = max_queue_size`) and the
`processing_queue` flag, which is true exactly while a processing attempt is
scheduled via `threading.Timer`.  The `queue_lock` serialises all accesses, so
each method below is a single atomic transition. -/
structure RateLimitState (α : Type) where
  rate_limit_seconds : ℤ
  last_send_time : ℤ
  message_queue : List α
  max_queue_size : Nat
  processing_queue : Bool
  deriving DecidableEq

/-- `RateLimitMixin._can_send_now`: true iff
`(time.time() - self.last_send_time) >= self.rate_limit_seconds`. -/
def can_send_now {α : Type} (now : ℤ) (s : RateLimitState α) : Bool :=
  decide (now - s.last_send_time ≥ s.rate_limit_seconds)

/-- `RateLimitMixin._schedule_queue_processing`: computes the wait until the
next slot (falling back to `QUEUE_PROCESSING_DELAY` when the gate is already
open), sets `processing_queue := True` and arms a one-shot timer.  Returns the
updated state together with the armed delay. -/
def schedule_queue_processing {α : Type} (now : ℤ) (s : RateLimitState α) :
    RateLimitState α × ℚ :=
  let wait : ℚ := ((s.rate_limit_seconds - (now - s.last_send_time) : ℤ) : ℚ)
  let wait := if wait ≤ 0 then QUEUE_PROCESSING_DELAY else wait
  ({ s with processing_queue := true }, wait)

/-- `RateLimitMixin._queue_message`: appends to the bounded deque, and if no
processing attempt is pending arms one; always returns `True` (the
`except` branch is unreachable because `deque.append` does not raise). -/
def queue_message {α : Type} (now : ℤ) (s : RateLimitState α) (message : α) :
    RateLimitState α × Bool :=
  let s := { s with
    message_queue := dequeAppend s.max_queue_size s.message_queue message }
  let s := if s.processing_queue then s else (schedule_queue_processing now s).1
  (s, true)

/-- Outcome of one HTTP request made by `requests.post` in
`_send_message_direct`: either the request raised (`requests.RequestException`,
covering network errors, timeouts, and the exception thrown by
`raise_for_status` on a 4xx/5xx status), or it produced a response with a
status code. -/
inductive HttpResult where
  | networkError
  | response (status : Nat)
  deriving DecidableEq

/-- Success of the device call as reported by the transport: a response whose
status is neither 429 nor in the 400..599 range raised by
`raise_for_status`.  (Requests-level errors and 4xx/5xx are failures.) -/
def http_success (r : HttpResult) : Bool :=
  match r with
  | .networkError => false
  | .response status => decide (status ≠ 429 ∧ ¬ (400 ≤ status ∧ status < 600))

/-- Failure of a device write attempt as the spec describes it: a network
error, a 429 rate-limit response, or a non-success (4xx/5xx) HTTP status. -/
def device_write_failed (r : HttpResult) : Bool :=
  match r with
  | .networkError => true
  | .response status => decide (status = 429 ∨ (400 ≤ status ∧ status < 600))

/-- `VestaboardClient._send_message_direct` (src/vestaboard/cloud_client.py):
posts the payload; a 429 response returns `False`; `raise_for_status` turns a
4xx/5xx into an exception handled by `_handle_request_error`, which returns
`False`; otherwise `last_send_time = time.time()` is recorded and `True` is
returned.  Only the successful branch touches `last_send_time`. -/
def cloud_send_message_direct {α : Type} (now : ℤ) (r : HttpResult)
    (s : RateLimitState α) : RateLimitState α × Bool :=
  match r with
  | .networkError => (s, false)
  | .response status =>
      if status = 429 then (s, false)
      else if 400 ≤ status ∧ status < 600 then (s, false)
      else ({ s with last_send_time := now }, true)

/-- `LocalVestaboardClient._send_message_direct` (src/vestaboard/local_client.py):
identical control flow to the cloud client (429 check, `raise_for_status`,
`last_send_time` updated only on success). -/
def local_send_message_direct {α : Type} (now : ℤ) (r : HttpResult)
    (s : RateLimitState α) : RateLimitState α × Bool :=
  match r with
  | .networkError => (s, false)
  | .response status =>
      if status = 429 then (s, false)
      else if 400 ≤ status ∧ status < 600 then (s, false)
      else ({ s with last_send_time := now }, true)

/-- `VestaboardClient.write_message`: sends directly when the rate gate is
open, otherwise queues the message. -/
def cloud_write_message {α : Type} (now : ℤ) (r : HttpResult)
    (s : RateLimitState α) (message : α) : RateLimitState α × Bool :=
  if can_send_now now s then cloud_send_message_direct now r s
  else queue_message now s message

/-- The `TEXT_TO_CODE_MAP` of src/vestaboard/constants.py as a function, with
the dictionary default `TEXT_TO_CODE_MAP.get(char, 0)` built in. -/
def text_to_code (c : Char) : Nat :=
  if c = ' ' then 0
  else if 'A' ≤ c ∧ c ≤ 'Z' then c.toNat - 'A'.toNat + 1
  else if '1' ≤ c ∧ c ≤ '9' then c.toNat - '1'.toNat + 27
  else if c = '0' then 36
  else if c = '!' then 37
  else if c = '@' then 38
  else if c = '#' then 39
  else if c = '$' then 40
  else if c = '(' then 41
  else if c = ')' then 42
  else if c = '-' then 44
  else if c = '+' then 46
  else if c = '&' then 47
  else if c = '=' then 48
  else if c = ';' then 49
  else if c = ':' then 50
  else if c = Char.ofNat 39 then 52
  else if c = Char.ofNat 34 then 53
  else if c = '%' then 54
  else if c = ',' then 55
  else if c = '.' then 56
  else if c = '/' then 59
  else if c = '?' then 60
  else if c = Char.ofNat 0x2665 ∨ c = Char.ofNat 0x2764 then 62
  else if c = Char.ofNat 0x1F7E5 then 63
  else if c = Char.ofNat 0x1F7E7 then 64
  else if c = Char.ofNat 0x1F7E8 then 65
  else if c = Char.ofNat 0x1F7E9 then 66
  else if c = Char.ofNat 0x1F7E6 then 67
  else if c = Char.ofNat 0x1F7EA then 68
  else if c = Char.ofNat 0x2B1C then 69
  else if c = Char.ofNat 0x2B1B then 70
  else if c = Char.ofNat 0x25A0 then 71
  else 0

/-- `text_to_layout` of src/vestaboard/utils.py: an all-zero `rows x cols`
grid with the uppercased text, truncated to `cols`, centred on the first row.
The function is total (the Python body performs no operation that can raise
for a string input and a board with at least one row), so the defensive
`try/except` around its call sites never fires. -/
def text_to_layout (text : String) (rows cols : Nat) : List (List Nat) :=
  let textUpper := (text.toUpper.take cols).data
  let startCol := (cols - textUpper.length) / 2
  let row0 := List.replicate startCol 0 ++ textUpper.map text_to_code
      ++ List.replicate (cols - startCol - textUpper.length) 0
  row0 :: List.replicate (rows - 1) (List.replicate cols 0)

/-- A message handed to a client: `Union[str, List[List[int]]]`. -/
inductive VestaMessage where
  | text (t : String)
  | layout (l : List (List Nat))
  deriving DecidableEq

/-- Conversion prelude shared by the local client write paths:
`if isinstance(message, str): message = text_to_layout(message, board_type)`. -/
def to_local_layout (rows cols : Nat) : VestaMessage → List (List Nat)
  | .text t => text_to_layout t rows cols
  | .layout l => l

/-- `LocalVestaboardClient.write_message`: converts a text message to a layout
first (total, see `text_to_layout`), then sends directly when the rate gate is
open and queues the converted layout otherwise. -/
def local_write_message (rows cols : Nat) (now : ℤ) (r : HttpResult)
    (s : RateLimitState (List (List Nat))) (message : VestaMessage) :
    RateLimitState (List (List Nat)) × Bool :=
  let layout := to_local_layout rows cols message
  if can_send_now now s then local_send_message_direct now r s
  else queue_message now s layout

/-- `LocalVestaboardClient._validate_step_interval_ms`: `None` is accepted,
otherwise the value must be a positive integer at most 60000. -/
def validate_step_interval_ms : Option Int → Bool
  | none => true
  | some v => decide (0 < v) && decide (v ≤ 60000)

/-- `LocalVestaboardClient._validate_step_size`: `None` is accepted, otherwise
the value must be a positive integer at most `rows * cols`. -/
def validate_step_size (maxCells : Nat) : Option Int → Bool
  | none => true
  | some v => decide (0 < v) && decide (v ≤ (maxCells : Int))

/-- `LocalVestaboardClient._send_animated_message_direct`: posts the animated
payload; the rate-limit / error / success handling is identical to
`_send_message_direct` (429 returns `False`; `raise_for_status` failures return
`False`; `last_send_time` is updated only on success). -/
def local_send_animated_message_direct {α : Type} (now : ℤ) (r : HttpResult)
    (s : RateLimitState α) : RateLimitState α × Bool :=
  match r with
  | .networkError => (s, false)
  | .response status =>
      if status = 429 then (s, false)
      else if 400 ≤ status ∧ status < 600 then (s, false)
      else ({ s with last_send_time := now }, true)

/-- `LocalVestaboardClient.write_animated_message`: validates the strategy
(against `ANIMATION_STRATEGIES`, here a parameter `validStrategies`) and the
step parameters, converts text, and then — unlike `write_message` — DROPS the
message when the rate gate is closed, returning `False` without touching the
queue. -/
def write_animated_message (validStrategies : List String) (rows cols : Nat)
    (now : ℤ) (r : HttpResult) (s : RateLimitState (List (List Nat)))
    (message : VestaMessage) (strategy : String)
    (step_interval_ms step_size : Option Int) :
    RateLimitState (List (List Nat)) × Bool :=
  if ¬ validStrategies.contains strategy then (s, false)
  else if ¬ validate_step_interval_ms step_interval_ms then (s, false)
  else if ¬ validate_step_size (rows * cols) step_size then (s, false)
  else
    let _layout := to_local_layout rows cols message
    if can_send_now now s then local_send_animated_message_direct now r s
    else (s, false)

/-- `RateLimitMixin._process_queue`, which runs when the armed timer fires
(consuming it): clears `processing_queue`; returns if the queue is empty;
re-arms and returns if the gate is closed; otherwise pops the oldest message,
attempts the direct send (`sendOk` gives the device outcome per message,
`last_send_time` advancing only on success), and re-arms only when messages
remain AND the send succeeded.  The second component reports which message was
sent and whether it succeeded. -/
def process_queue {α : Type} (now : ℤ) (sendOk : α → Bool)
    (s : RateLimitState α) : RateLimitState α × Option (α × Bool) :=
  let s := { s with processing_queue := false }
  match s.message_queue with
  | [] => (s, none)
  | message :: rest =>
      if ¬ can_send_now now s then ((schedule_queue_processing now s).1, none)
      else
        let ok := sendOk message
        let s := { s with
          message_queue := rest,
          last_send_time := if ok then now else s.last_send_time }
        if !rest.isEmpty && ok then ((schedule_queue_processing now s).1, some (message, ok))
        else (s, some (message, ok))

theorem cloud_send_message_direct_snd {α : Type} (now : ℤ) (r : HttpResult)
    (s : RateLimitState α) : (cloud_send_message_direct now r s).2 = http_success r := by
  cases r with
  | networkError => rfl
  | response status =>
      simp only [cloud_send_message_direct, http_success]
      by_cases h1 : status = 429
      · simp [h1]
      · by_cases h2 : 400 ≤ status ∧ status < 600
        · simp [h1, h2]
        · simp [h1, h2]

theorem cloud_send_message_direct_queue {α : Type} (now : ℤ) (r : HttpResult)
    (s : RateLimitState α) :
    (cloud_send_message_direct now r s).1.message_queue = s.message_queue := by
  cases r with
  | networkError => rfl
  | response status =>
      simp only [cloud_send_message_direct]
      split
      · rfl
      · split <;> rfl

theorem local_send_message_direct_eq_cloud {α : Type} (now : ℤ) (r : HttpResult)
    (s : RateLimitState α) :
    local_send_message_direct now r s = cloud_send_message_direct now r s := by
  cases r <;> rfl

theorem queue_message_snd {α : Type} (now : ℤ) (s : RateLimitState α) (m : α) :
    (queue_message now s m).2 = true := by
  simp only [queue_message]

theorem queue_message_queue {α : Type} (now : ℤ) (s : RateLimitState α) (m : α) :
    (queue_message now s m).1.message_queue
      = dequeAppend s.max_queue_size s.message_queue m := by
  simp only [queue_message, schedule_queue_processing]
  split <;> rfl

theorem queue_message_last_send_time {α : Type} (now : ℤ) (s : RateLimitState α) (m : α) :
    (queue_message now s m).1.last_send_time = s.last_send_time := by
  simp only [queue_message, schedule_queue_processing]
  split <;> rfl

/-- C2: for every `write_message` call (cloud and local dispatchers): when the
rate gate is open the message is sent directly, the call returns exactly the
device call's success, and the queue is untouched; when the gate is closed the
message is appended to the bounded queue and the call returns `true`
(accepted-for-later), without any device call (`last_send_time` untouched). -/
theorem write_message_gate_dispatch {α : Type} (now : ℤ) (r : HttpResult)
    (s : RateLimitState α) (m : α) (rows cols : Nat)
    (sl : RateLimitState (List (List Nat))) (lm : VestaMessage) :
    (can_send_now now s = true →
       cloud_write_message now r s m = cloud_send_message_direct now r s ∧
       (cloud_write_message now r s m).2 = http_success r ∧
       (cloud_write_message now r s m).1.message_queue = s.message_queue) ∧
    (can_send_now now s = false →
       (cloud_write_message now r s m).2 = true ∧
       (cloud_write_message now r s m).1.message_queue
         = dequeAppend s.max_queue_size s.message_queue m ∧
       (cloud_write_message now r s m).1.last_send_time = s.last_send_time) ∧
    (can_send_now now sl = true →
       local_write_message rows cols now r sl lm = local_send_message_direct now r sl ∧
       (local_write_message rows cols now r sl lm).2 = http_success r) ∧
    (can_send_now now sl = false →
       (local_write_message rows cols now r sl lm).2 = true ∧
       (local_write_message rows cols now r sl lm).1.message_queue
         = dequeAppend sl.max_queue_size sl.message_queue (to_local_layout rows cols lm)) := by
  refine ⟨fun hopen => ?_, fun hclosed => ?_, fun hopen => ?_, fun hclosed => ?_⟩
  · have hif : cloud_write_message now r s m = cloud_send_message_direct now r s := by
      simp [cloud_write_message, hopen]
    exact ⟨hif, hif ▸ cloud_send_message_direct_snd now r s,
      hif ▸ cloud_send_message_direct_queue now r s⟩
  · have hif : cloud_write_message now r s m = queue_message now s m := by
      simp [cloud_write_message, hclosed]
    exact hif ▸ ⟨queue_message_snd now s m, queue_message_queue now s m,
      queue_message_last_send_time now s m⟩
  · have hif : local_write_message rows cols now r sl lm = local_send_message_direct now r sl := by
      simp [local_write_message, hopen]
    exact ⟨hif, hif ▸ (local_send_message_direct_eq_cloud now r sl) ▸
      cloud_send_message_direct_snd now r sl⟩
  · have hif : local_write_message rows cols now r sl lm
        = queue_message now sl (to_local_layout rows cols lm) := by
      simp [local_write_message, hclosed]
    exact hif ▸ ⟨queue_message_snd now sl _, queue_message_queue now sl _⟩

/-- Witness for C2: gate open (cloud, success response), gate closed (cloud
queues), gate open (local), gate closed (local queues the converted text). -/
theorem write_message_gate_dispatch_witness :
    ((cloud_write_message 20 (HttpResult.response 200)
        (⟨15, 0, [], 10, false⟩ : RateLimitState Nat) 7).2 = http_success (HttpResult.response 200)) ∧
    ((cloud_write_message 5 (HttpResult.response 200)
        (⟨15, 0, [], 10, false⟩ : RateLimitState Nat) 7).1.message_queue
      = dequeAppend 10 [] 7) ∧
    ((local_write_message 6 22 5 (HttpResult.response 200)
        (⟨15, 0, [], 10, false⟩ : RateLimitState (List (List Nat)))
        (VestaMessage.layout [[1]])).2 = true) := by
  have h1 := (write_message_gate_dispatch (α := Nat) 20 (HttpResult.response 200)
    ⟨15, 0, [], 10, false⟩ 7 6 22 ⟨15, 0, [], 10, false⟩ (VestaMessage.layout [[1]])).1
    (by decide)
  have h2 := (write_message_gate_dispatch (α := Nat) 5 (HttpResult.response 200)
    ⟨15, 0, [], 10, false⟩ 7 6 22 ⟨15, 0, [], 10, false⟩ (VestaMessage.layout [[1]]))
  exact ⟨h1.2.1, (h2.2.1 (by decide)).2.1, ((h2.2.2.2) (by decide)).1⟩

/-- C3: a failed device write attempt (network error, 4xx/5xx status, or an
explicit 429 from the transport) leaves the client state — in particular
`last_send_time` — completely unchanged and returns `false`; and whenever
`last_send_time` moved, the write was a confirmed success.  Holds for both the
cloud and the local `_send_message_direct`. -/
theorem failed_send_keeps_last_send_time {α : Type} (now : ℤ) (r : HttpResult)
    (s : RateLimitState α) :
    (device_write_failed r = true →
       cloud_send_message_direct now r s = (s, false) ∧
       local_send_message_direct now r s = (s, false)) ∧
    ((cloud_send_message_direct now r s).1.last_send_time ≠ s.last_send_time →
       (cloud_send_message_direct now r s).2 = true ∧ device_write_failed r = false) ∧
    ((local_send_message_direct now r s).1.last_send_time ≠ s.last_send_time →
       (local_send_message_direct now r s).2 = true ∧ device_write_failed r = false) := by
  rw [local_send_message_direct_eq_cloud]
  have hchange : (cloud_send_message_direct now r s).1.last_send_time ≠ s.last_send_time →
      (cloud_send_message_direct now r s).2 = true ∧ device_write_failed r = false := by
    intro h
    cases r with
    | networkError => exact absurd rfl h
    | response status =>
        by_cases h1 : status = 429
        · simp [cloud_send_message_direct, h1] at h
        · by_cases h2 : 400 ≤ status ∧ status < 600
          · simp [cloud_send_message_direct, h1, h2] at h
          · simp [cloud_send_message_direct, device_write_failed, h1, h2]
  refine ⟨fun hfail => ?_, hchange, hchange⟩
  cases r with
  | networkError => exact ⟨rfl, rfl⟩
  | response status =>
      simp only [device_write_failed, decide_eq_true_eq] at hfail
      have hone : cloud_send_message_direct now (HttpResult.response status) s = (s, false) := by
        rcases hfail with h429 | hrange
        · simp [cloud_send_message_direct, h429]
        · simp only [cloud_send_message_direct]
          by_cases h429 : status = 429
          · simp [h429]
          · rw [if_neg h429, if_pos hrange]
      exact ⟨hone, hone⟩

/-- Witness for C3: a 429 response and a network error leave the timestamp
alone; instantiated at a concrete client state. -/
theorem failed_send_keeps_last_send_time_witness :
    cloud_send_message_direct 20 (HttpResult.response 429)
        (⟨15, 3, [], 10, false⟩ : RateLimitState Nat)
      = (⟨15, 3, [], 10, false⟩, false) ∧
    local_send_message_direct 20 (HttpResult.response 429)
        (⟨15, 3, [], 10, false⟩ : RateLimitState Nat)
      = (⟨15, 3, [], 10, false⟩, false) :=
  (failed_send_keeps_last_send_time 20 (HttpResult.response 429)
    (⟨15, 3, [], 10, false⟩ : RateLimitState Nat)).1 (by decide)

/-- C5: when `_process_queue` dequeues a command with the gate open and the
device send fails, the command is dropped — the resulting state has exactly the
remaining commands (the failed one is not re-queued), `last_send_time` is not
advanced, and `processing_queue` is left `false`, i.e. no further processing
attempt is armed even though other commands may remain; the next
`_queue_message` call is what arms processing again. -/
theorem failed_send_drops_command_and_stops {α : Type} (now : ℤ) (sendOk : α → Bool)
    (s : RateLimitState α) (m x : α) (rest : List α)
    (hq : s.message_queue = m :: rest)
    (hgate : can_send_now now s = true)
    (hfail : sendOk m = false) :
    process_queue now sendOk s
      = ({ s with message_queue := rest, processing_queue := false }, some (m, false)) ∧
    (queue_message now { s with message_queue := rest, processing_queue := false } x).1.processing_queue
      = true := by
  constructor
  · obtain ⟨rl, lst, q, mx, pq⟩ := s
    simp only [RateLimitState.mk.injEq] at hq ⊢
    subst hq
    have hgate' : can_send_now now
        (⟨rl, lst, m :: rest, mx, false⟩ : RateLimitState α) = true := hgate
    simp [process_queue, hgate', hfail]
  · simp [queue_message, schedule_queue_processing]

/-- Witness for C5 with a two-element queue, an open gate and a failing
device: the head is dropped, the tail stays, nothing is re-armed. -/
theorem failed_send_drops_command_and_stops_witness :
    process_queue 20 (fun _ => false) (⟨15, 0, [7, 8], 10, true⟩ : RateLimitState Nat)
      = (⟨15, 0, [8], 10, false⟩, some (7, false)) ∧
    (queue_message 20 (⟨15, 0, [8], 10, false⟩ : RateLimitState Nat) 9).1.processing_queue
      = true :=
  failed_send_drops_command_and_stops 20 (fun _ => false)
    ⟨15, 0, [7, 8], 10, true⟩ 7 9 [8] rfl (by decide) rfl

/-- C10: a `write_animated_message` call made while the rate gate is closed
returns `false` and leaves the client state (in particular the message queue)
completely unchanged — animated messages are dropped under rate limiting —
whereas a plain `write_message` under the same closed gate queues the message
and returns `true`. -/
theorem animated_message_dropped_when_rate_limited (validStrategies : List String)
    (rows cols : Nat) (now : ℤ) (r : HttpResult)
    (s : RateLimitState (List (List Nat))) (message : VestaMessage)
    (strategy : String) (step_interval_ms step_size : Option Int)
    (hgate : can_send_now now s = false) :
    write_animated_message validStrategies rows cols now r s message strategy
        step_interval_ms step_size = (s, false) ∧
    (local_write_message rows cols now r s message).2 = true ∧
    (local_write_message rows cols now r s message).1.message_queue
      = dequeAppend s.max_queue_size s.message_queue (to_local_layout rows cols message) := by
  refine ⟨?_, ?_, ?_⟩
  · simp only [write_animated_message, hgate, Bool.false_eq_true, if_false]
    split
    · rfl
    · split
      · rfl
      · split
        · rfl
        · simp
  · have hif : local_write_message rows cols now r s message
        = queue_message now s (to_local_layout rows cols message) := by
      simp [local_write_message, hgate]
    exact hif ▸ queue_message_snd now s _
  · have hif : local_write_message rows cols now r s message
        = queue_message now s (to_local_layout rows cols message) := by
      simp [local_write_message, hgate]
    exact hif ▸ queue_message_queue now s _

/-- Witness for C10 at a closed gate (1 second since the last send, 15 second
limit): the animated write is a no-op returning `false`, the plain write
queues. -/
theorem animated_message_dropped_when_rate_limited_witness :
    write_animated_message ["column"] 6 22 1 (HttpResult.response 200)
        (⟨15, 0, [], 10, false⟩ : RateLimitState (List (List Nat)))
        (VestaMessage.layout [[1]]) "column" none none
      = (⟨15, 0, [], 10, false⟩, false) ∧
    (local_write_message 6 22 1 (HttpResult.response 200)
        (⟨15, 0, [], 10, false⟩ : RateLimitState (List (List Nat)))
        (VestaMessage.layout [[1]])).2 = true ∧
    (local_write_message 6 22 1 (HttpResult.response 200)
        (⟨15, 0, [], 10, false⟩ : RateLimitState (List (List Nat)))
        (VestaMessage.layout [[1]])).1.message_queue
      = dequeAppend 10 [] (to_local_layout 6 22 (VestaMessage.layout [[1]])) :=
  animated_message_dropped_when_rate_limited ["column"] 6 22 1 (HttpResult.response 200)
    ⟨15, 0, [], 10, false⟩ (VestaMessage.layout [[1]]) "column" none none (by decide)

/-- Enqueue a whole list of commands through `_queue_message` (the gate being
closed, `write_message` delegates every one of them to `_queue_message`). -/
def enqueue_all {α : Type} (now : ℤ) (s : RateLimitState α) (msgs : List α) :
    RateLimitState α :=
  msgs.foldl (fun s m => (queue_message now s m).1) s

/-- The clock of the spec's FIFO drain scenario: starting from last send time
`L`, each successive processing step runs one `minimumInterval` `r` after the
previous (successful) send. -/
def drainTimes (L r : ℤ) : Nat → List ℤ
  | 0 => []
  | n + 1 => (L + r) :: drainTimes (L + r) r n

/-- Run `_process_queue` once per instant in `times` (each run consuming the
armed timer), collecting in order the messages handed to
`_send_message_direct` together with their outcomes. -/
def drain_steps {α : Type} (sendOk : α → Bool) (times : List ℤ)
    (s : RateLimitState α) : RateLimitState α × List (α × Bool) :=
  match times with
  | [] => (s, [])
  | t :: ts =>
      let step := process_queue t sendOk s
      let rest := drain_steps sendOk ts step.1
      (rest.1, step.2.toList ++ rest.2)

theorem drain_steps_cons {α : Type} (sendOk : α → Bool) (t : ℤ) (ts : List ℤ)
    (s : RateLimitState α) :
    drain_steps sendOk (t :: ts) s
      = ((drain_steps sendOk ts (process_queue t sendOk s).1).1,
         (process_queue t sendOk s).2.toList
           ++ (drain_steps sendOk ts (process_queue t sendOk s).1).2) := rfl

theorem dequeAppend_of_lt {α : Type} (maxlen : Nat) (q : List α) (x : α)
    (h : q.length < maxlen) : dequeAppend maxlen q x = q ++ [x] := by
  have h0 : (q ++ [x]).length - maxlen = 0 := by
    simp only [List.length_append, List.length_cons, List.length_nil]
    omega
  simp only [dequeAppend, h0, List.drop_zero]

theorem queue_message_fst {α : Type} (now : ℤ) (s : RateLimitState α) (m : α) :
    (queue_message now s m).1
      = { s with message_queue := dequeAppend s.max_queue_size s.message_queue m,
                 processing_queue := true } := by
  obtain ⟨rl, lst, q, mx, pq⟩ := s
  cases pq <;> simp [queue_message, schedule_queue_processing]

theorem enqueue_all_spec {α : Type} (now : ℤ) (msgs : List α) :
    ∀ s : RateLimitState α,
      s.message_queue.length + msgs.length ≤ s.max_queue_size →
      (enqueue_all now s msgs).message_queue = s.message_queue ++ msgs ∧
      (enqueue_all now s msgs).rate_limit_seconds = s.rate_limit_seconds ∧
      (enqueue_all now s msgs).last_send_time = s.last_send_time ∧
      (enqueue_all now s msgs).max_queue_size = s.max_queue_size := by
  induction msgs with
  | nil => intro s _; simp [enqueue_all]
  | cons m ms ih =>
      intro s h
      have hlt : s.message_queue.length < s.max_queue_size := by
        simp only [List.length_cons] at h; omega
      have hstep : enqueue_all now s (m :: ms)
          = enqueue_all now (queue_message now s m).1 ms := by
        simp [enqueue_all]
      have hfst := queue_message_fst now s m
      have happ := dequeAppend_of_lt s.max_queue_size s.message_queue m hlt
      have hih := ih ((queue_message now s m).1) (by
        rw [hfst]
        simp only [happ, List.length_append, List.length_cons, List.length_nil]
        simp only [List.length_cons] at h
        omega)
      rw [hstep]
      rw [hfst] at hih ⊢
      simp only [happ] at hih ⊢
      refine ⟨?_, hih.2.1, hih.2.2.1, hih.2.2.2⟩
      rw [hih.1]
      simp

/-- Draining a queue holding exactly `msgs`, one processing step per
rate-limit interval with every send succeeding, hands the messages to the
device in exactly the enqueued order and empties the queue. -/
theorem drain_steps_all_sent {α : Type} (msgs : List α) :
    ∀ s : RateLimitState α, s.message_queue = msgs →
      (drain_steps (fun _ => true)
          (drainTimes s.last_send_time s.rate_limit_seconds msgs.length) s).2
        = msgs.map (fun m => (m, true)) ∧
      (drain_steps (fun _ => true)
          (drainTimes s.last_send_time s.rate_limit_seconds msgs.length) s).1.message_queue
        = [] := by
  induction msgs with
  | nil => intro s hq; simp [drainTimes, drain_steps, hq]
  | cons m ms ih =>
      intro s hq
      obtain ⟨rl, lst, q, mx, pq⟩ := s
      dsimp only at hq
      subst hq
      cases ms with
      | nil =>
          simp [drainTimes, drain_steps, process_queue, can_send_now,
            schedule_queue_processing, add_sub_cancel_left]
      | cons a l =>
          have hih := ih (⟨rl, lst + rl, a :: l, mx, true⟩ : RateLimitState α) rfl
          dsimp only at hih
          have houter : drainTimes lst rl (m :: a :: l).length
              = (lst + rl) :: drainTimes (lst + rl) rl (a :: l).length := rfl
          have hpq : process_queue (lst + rl) (fun _ : α => true)
              (⟨rl, lst, m :: a :: l, mx, pq⟩ : RateLimitState α)
              = ((⟨rl, lst + rl, a :: l, mx, true⟩ : RateLimitState α), some (m, true)) := by
            simp [process_queue, can_send_now, schedule_queue_processing, add_sub_cancel_left]
          dsimp only
          rw [houter, drain_steps_cons, hpq]
          dsimp only
          simp only [Option.toList_some, List.singleton_append]
          exact ⟨by rw [hih.1]; rfl, hih.2⟩

/-- C4: if `n` commands (within capacity, so no overflow) are enqueued through
`_queue_message` while the gate is closed, then draining via `_process_queue`
— one step per rate-limit interval, every send succeeding — delivers exactly
those commands to the device in enqueue order and ends with an empty queue. -/
theorem fifo_drain_in_enqueue_order {α : Type} (now : ℤ) (s₀ : RateLimitState α)
    (msgs : List α) (h₀ : s₀.message_queue = [])
    (hcap : msgs.length ≤ s₀.max_queue_size) :
    (enqueue_all now s₀ msgs).message_queue = msgs ∧
    (drain_steps (fun _ => true)
        (drainTimes s₀.last_send_time s₀.rate_limit_seconds msgs.length)
        (enqueue_all now s₀ msgs)).2
      = msgs.map (fun m => (m, true)) ∧
    (drain_steps (fun _ => true)
        (drainTimes s₀.last_send_time s₀.rate_limit_seconds msgs.length)
        (enqueue_all now s₀ msgs)).1.message_queue = [] := by
  have hspec := enqueue_all_spec now msgs s₀ (by rw [h₀]; simpa using hcap)
  have hqueue : (enqueue_all now s₀ msgs).message_queue = msgs := by
    rw [hspec.1, h₀, List.nil_append]
  have hdrain := drain_steps_all_sent msgs (enqueue_all now s₀ msgs) hqueue
  rw [hspec.2.2.1, hspec.2.1] at hdrain
  exact ⟨hqueue, hdrain.1, hdrain.2⟩

/-- Witness for C4: three commands enqueued into an idle cloud client
(capacity 10, 15 second interval), drained at 15 second steps, are sent in
order 1, 2, 3. -/
theorem fifo_drain_in_enqueue_order_witness :
    (enqueue_all 1 (⟨15, 0, [], 10, false⟩ : RateLimitState Nat) [1, 2, 3]).message_queue
      = [1, 2, 3] ∧
    (drain_steps (fun _ => true) (drainTimes 0 15 3)
        (enqueue_all 1 (⟨15, 0, [], 10, false⟩ : RateLimitState Nat) [1, 2, 3])).2
      = [(1, true), (2, true), (3, true)] ∧
    (drain_steps (fun _ => true) (drainTimes 0 15 3)
        (enqueue_all 1 (⟨15, 0, [], 10, false⟩ : RateLimitState Nat) [1, 2, 3])).1.message_queue
      = [] :=
  fifo_drain_in_enqueue_order 1 ⟨15, 0, [], 10, false⟩ [1, 2, 3] rfl (by decide)

/-- State owned by `TimerManager` (src/mqtt/timers.py): `active_timers` holds
the ids present in the `active_timers` dict (the registry), `armed_timers` the
ids whose `threading.Timer` has been created and started, and `saved_slots`
records the slot names passed to `save_state_manager.save_current_state`
(the capture of the current display). -/
structure TimerManagerState where
  active_timers : List String
  armed_timers : List String
  saved_slots : List String
  deriving DecidableEq

/-- Timer id generation: `f"timer_{int(time.time())}"` — derived from the
whole-second timestamp. -/
def timer_id_of (nowSec : ℤ) : String :=
  "timer_" ++ toString nowSec

/-- The `created_at` field of `get_timer_info_list`:
`timer_id.split("_")[-1] if "_" in timer_id else "unknown"`. -/
def created_at_of (timer_id : String) : String :=
  if timer_id.contains (Char.ofNat 95) then (timer_id.splitOn "_").getLastD ""
  else "unknown"

/-- `TimerManager.get_timer_info_list`: one `(timer_id, created_at)` entry per
registry key (the `active` flag, a live `threading.Timer` attribute, is
outside the state model). -/
def get_timer_info_list (tm : TimerManagerState) : List (String × String) :=
  tm.active_timers.map (fun tid => (tid, created_at_of tid))

/-- `TimerManager.schedule_timed_message` up to the point where the timer is
armed: generates the id; when no restore slot is given, captures the current
state into the auto-named `temp_<timer_id>` slot; attempts the initial write
(animated or plain — abstracted to its outcome `write_success`); on failure
returns the id WITHOUT arming a timer or touching the registry; on success
inserts the id into `active_timers` and starts the timer. -/
def schedule_timed_message (tm : TimerManagerState) (nowSec : ℤ)
    (restore_slot : Option String) (write_success : Bool) :
    TimerManagerState × String :=
  let timer_id := timer_id_of nowSec
  let tm := match restore_slot with
    | none => { tm with saved_slots := ("temp_" ++ timer_id) :: tm.saved_slots }
    | some _ => tm
  if write_success = false then (tm, timer_id)
  else
    ({ tm with active_timers := timer_id :: tm.active_timers,
               armed_timers := timer_id :: tm.armed_timers }, timer_id)

/-- `TimerManager.cancel_timed_message`: `active_timers.pop(timer_id, None)`;
when the id was present the popped timer is cancelled and `True` returned,
otherwise `False`. -/
def cancel_timed_message (tm : TimerManagerState) (timer_id : String) :
    TimerManagerState × Bool :=
  if tm.active_timers.contains timer_id then
    ({ tm with active_timers := tm.active_timers.filter (fun t => t != timer_id),
               armed_timers := tm.armed_timers.filter (fun t => t != timer_id) }, true)
  else (tm, false)

/-- Resolution of the restore render parameters in
`TimerManager.schedule_timed_message` (src/mqtt/timers.py lines 102-108):
`restore_x if restore_x is not None else x` — a supplied restore-specific
parameter overrides, otherwise the timed message parameter is inherited. -/
def resolve_restore_param {β : Type} (restore_param param : Option β) : Option β :=
  match restore_param with
  | some v => some v
  | none => param

/-- Python keyword-argument binding at a call site: every keyword name must be
accepted by the callee (a named parameter left unbound by the positional
arguments, or a `**kwargs` catch-all); otherwise the call raises `TypeError`
before the callee body runs. -/
def kw_call_accepted (accepted_kw_names : List String) (has_var_kw : Bool)
    (kwargs : List String) : Bool :=
  has_var_kw || kwargs.all (fun k => accepted_kw_names.contains k)

/-- The keyword names `restore_previous` (src/mqtt/timers.py lines 118-123)
passes to the restore callback, carrying the resolved render parameters. -/
def timed_restore_kwargs : List String :=
  ["strategy", "step_interval_ms", "step_size"]

/-- Keyword-assignable parameter names of the callback the bridge actually
wires in (`TimerManager(..., restore_callback := self.restore_from_slot)`,
src/mqtt/bridge.py line 49): `VestaboardMQTTBridge.restore_from_slot(self,
slot)` (line 265) leaves no named parameter after the positional `slot` and
declares no `**kwargs`. -/
def bridge_restore_kw_params : List String := []

/-- The error the Python runtime raises when `restore_previous` calls the
bridge callback with keyword arguments its signature does not accept. -/
def type_error_message : String :=
  "TypeError: restore_from_slot got an unexpected keyword argument"

/-- Invocation of the restore callback with the keyword arguments used in
`restore_previous`: when the callee does not accept them the call raises
`TypeError`; otherwise the callee body runs (returning normally or raising on
its own). -/
def invoke_restore_callback (accepted_kw : List String) (has_var_kw : Bool)
    (body : Except String Unit) : Except String Unit :=
  if kw_call_accepted accepted_kw has_var_kw timed_restore_kwargs then body
  else Except.error type_error_message

/-- The `restore_previous` closure armed by `schedule_timed_message`
(src/mqtt/timers.py lines 111-126): waits out the rate limit (no registry
effect), invokes the restore callback with the resolved render parameters as
keyword arguments, and only afterwards — not under any try/finally — pops the
timer id from `active_timers`; an exception escaping the callback invocation
propagates out of the timer thread and the pop never runs. -/
def restore_previous (cb_accepted_kw : List String) (cb_has_var_kw : Bool)
    (cb_body : Except String Unit) (timer_id : String) (tm : TimerManagerState) :
    TimerManagerState × Except String Unit :=
  match invoke_restore_callback cb_accepted_kw cb_has_var_kw cb_body with
  | Except.error e => (tm, Except.error e)
  | Except.ok _ =>
      ({ tm with active_timers := tm.active_timers.filter (fun t => t != timer_id) },
        Except.ok ())

/-- C6 (evaluation at the failing configuration): the parameter resolution of
`schedule_timed_message` does inherit the timed message's render parameters
and lets restore-specific ones override them — but the restore write never
uses them: the fire callback's invocation of the wired bridge callback
(`restore_from_slot`, which accepts no keyword parameters) raises `TypeError`
for every state and timer id, so no restore write is performed at all. -/
theorem restore_params_resolved_but_restore_call_raises :
    (∀ p : Option String, resolve_restore_param none p = p) ∧
    (∀ (v : String) (p : Option String), resolve_restore_param (some v) p = some v) ∧
    kw_call_accepted bridge_restore_kw_params false timed_restore_kwargs = false ∧
    (∀ (tm : TimerManagerState) (tid : String),
       restore_previous bridge_restore_kw_params false (Except.ok ()) tid tm
         = (tm, Except.error type_error_message)) :=
  ⟨fun _ => rfl, fun _ _ => rfl, rfl, fun _ _ => rfl⟩

/-- C7 counterexample: with the callback the bridge actually wires in, the
fire callback raises (`TypeError`) and the timer id is STILL in the registry
after `restore_previous` runs — removal is not unconditional. -/
theorem timer_id_still_registered_after_raising_fire :
    (restore_previous bridge_restore_kw_params false (Except.ok ()) "timer_100"
        ⟨["timer_100"], ["timer_100"], []⟩).1.active_timers = ["timer_100"] ∧
    (restore_previous bridge_restore_kw_params false (Except.ok ()) "timer_100"
        ⟨["timer_100"], ["timer_100"], []⟩).2 = Except.error type_error_message :=
  ⟨rfl, rfl⟩

/-- C7 amended: when the restore callback invocation returns without raising
(whatever the restore write reported — failures inside it are swallowed and
logged), the timer id is removed from the registry; but if the invocation
raises, the id remains (see the counterexample). -/
theorem timer_removed_when_fire_returns (cbA : List String) (cbV : Bool)
    (cbB : Except String Unit) (tid : String) (tm : TimerManagerState)
    (h : invoke_restore_callback cbA cbV cbB = Except.ok ()) :
    tid ∉ (restore_previous cbA cbV cbB tid tm).1.active_timers ∧
    (restore_previous cbA cbV cbB tid tm).1.active_timers
      = tm.active_timers.filter (fun t => t != tid) := by
  have hunfold : restore_previous cbA cbV cbB tid tm
      = ({ tm with active_timers := tm.active_timers.filter (fun t => t != tid) },
          Except.ok ()) := by
    unfold restore_previous
    rw [h]
  rw [hunfold]
  refine ⟨?_, rfl⟩
  intro hmem
  rcases List.mem_filter.1 hmem with ⟨-, hne⟩
  simp at hne

/-- Witness for C7 amended, with a callback that accepts the keyword
arguments (as the test suite's mock callback does) and returns normally. -/
theorem timer_removed_when_fire_returns_witness :
    "timer_1" ∉ (restore_previous timed_restore_kwargs false (Except.ok ()) "timer_1"
        ⟨["timer_1"], ["timer_1"], []⟩).1.active_timers ∧
    (restore_previous timed_restore_kwargs false (Except.ok ()) "timer_1"
        ⟨["timer_1"], ["timer_1"], []⟩).1.active_timers
      = (["timer_1"] : List String).filter (fun t => t != "timer_1") :=
  timer_removed_when_fire_returns timed_restore_kwargs false (Except.ok ())
    "timer_1" ⟨["timer_1"], ["timer_1"], []⟩ rfl

/-- C9: when the initial write of a timed message fails,
`schedule_timed_message` still returns the generated timer id, but the
registry and the set of armed timers are untouched (the id never enters
them), the id does not appear in the timer info list, a later cancel of the id
returns `false` — and, when no restore slot was supplied, the current state
was nonetheless already captured into the auto-named `temp_` slot. -/
theorem failed_initial_write_returns_unarmed_id (tm : TimerManagerState)
    (nowSec : ℤ) (restore_slot : Option String)
    (hfresh : timer_id_of nowSec ∉ tm.active_timers) :
    (schedule_timed_message tm nowSec restore_slot false).2 = timer_id_of nowSec ∧
    (schedule_timed_message tm nowSec restore_slot false).1.active_timers
      = tm.active_timers ∧
    (schedule_timed_message tm nowSec restore_slot false).1.armed_timers
      = tm.armed_timers ∧
    timer_id_of nowSec ∉
      (get_timer_info_list (schedule_timed_message tm nowSec restore_slot false).1).map
        Prod.fst ∧
    cancel_timed_message (schedule_timed_message tm nowSec restore_slot false).1
        (timer_id_of nowSec)
      = ((schedule_timed_message tm nowSec restore_slot false).1, false) ∧
    (restore_slot = none →
      ("temp_" ++ timer_id_of nowSec)
        ∈ (schedule_timed_message tm nowSec restore_slot false).1.saved_slots) := by
  have hsched : (schedule_timed_message tm nowSec restore_slot false).1
      = (match restore_slot with
         | none => { tm with
             saved_slots := ("temp_" ++ timer_id_of nowSec) :: tm.saved_slots }
         | some _ => tm) := by
    cases restore_slot <;> simp [schedule_timed_message]
  have hactive : (schedule_timed_message tm nowSec restore_slot false).1.active_timers
      = tm.active_timers := by
    rw [hsched]; cases restore_slot <;> rfl
  have hsnd : (schedule_timed_message tm nowSec restore_slot false).2
      = timer_id_of nowSec := by
    cases restore_slot <;> simp [schedule_timed_message]
  have hcontains : (schedule_timed_message tm nowSec restore_slot false).1.active_timers.contains
      (timer_id_of nowSec) = false := by
    rw [hactive]
    simpa using hfresh
  have hfst_map : ∀ s : TimerManagerState,
      (get_timer_info_list s).map Prod.fst = s.active_timers := by
    intro s
    simp only [get_timer_info_list, List.map_map]
    exact List.map_id'' (congrFun rfl) _
  refine ⟨hsnd, hactive, ?_, ?_, ?_, ?_⟩
  · rw [hsched]; cases restore_slot <;> rfl
  · rw [hfst_map, hactive]
    exact hfresh
  · have hnot : ¬ ((schedule_timed_message tm nowSec restore_slot false).1.active_timers.contains
        (timer_id_of nowSec) = true) := by
      rw [hcontains]
      simp
    unfold cancel_timed_message
    rw [if_neg hnot]
  · intro hnone
    subst hnone
    rw [hsched]
    exact List.mem_cons_self _ _

/-- Witness for C9: failed write with an empty manager and no restore slot at
second 100. -/
theorem failed_initial_write_returns_unarmed_id_witness :
    (schedule_timed_message ⟨[], [], []⟩ 100 none false).2 = timer_id_of 100 ∧
    (schedule_timed_message ⟨[], [], []⟩ 100 none false).1.active_timers = [] ∧
    (schedule_timed_message ⟨[], [], []⟩ 100 none false).1.armed_timers = [] ∧
    timer_id_of 100 ∉
      (get_timer_info_list (schedule_timed_message ⟨[], [], []⟩ 100 none false).1).map
        Prod.fst ∧
    cancel_timed_message (schedule_timed_message ⟨[], [], []⟩ 100 none false).1
        (timer_id_of 100)
      = ((schedule_timed_message ⟨[], [], []⟩ 100 none false).1, false) ∧
    ((none : Option String) = none →
      ("temp_" ++ timer_id_of 100)
        ∈ (schedule_timed_message ⟨[], [], []⟩ 100 none false).1.saved_slots) :=
  failed_initial_write_returns_unarmed_id ⟨[], [], []⟩ 100 none (by simp)

/-- Program counter of the timer thread around its natural firing
(`threading.Timer.run`: `self.finished.wait(interval); if not
self.finished.is_set(): self.function()` where the function is
`restore_previous`). -/
inductive FirePC where
  | checkFlag
  | runBody
  | popRegistry
  | done
  deriving DecidableEq

/-- Program counter of a concurrent `cancel_timed_message(timer_id)` call. -/
inductive CancelPC where
  | popId
  | finishStep
  | done
  deriving DecidableEq

/-- Which thread takes the next atomic step. -/
inductive RaceThread where
  | fire
  | cancel
  deriving DecidableEq

/-- Joint state of one timer's fire callback racing a `cancel` call on the
same id: `finished_flag` is the timer's `finished` event (set by
`timer.cancel()`), `registry_has_id` whether the id is still a key of
`active_timers`, `restore_runs` how many times the fire action (the restore
callback invocation) has executed, `cancel_found` the value popped by cancel
and `cancel_result` its eventual return value. -/
structure RaceState where
  finished_flag : Bool
  registry_has_id : Bool
  restore_runs : Nat
  cancel_found : Bool
  cancel_result : Option Bool
  fire_pc : FirePC
  cancel_pc : CancelPC
  deriving DecidableEq

/-- One atomic step of the chosen thread.  Fire: `threading.Timer.run` checks
the `finished` event (cancel wins only if it set the event before this check);
then the callback body runs the restore action; then pops the id from the
registry.  Cancel (`cancel_timed_message`): `active_timers.pop(timer_id,
None)` (atomic under the GIL), then — when a timer was found — `timer.cancel()`
(sets the `finished` event) and `return True`, else `return False`.  No
fired-or-cancelled flag is consulted anywhere. -/
def race_step (st : RaceState) : RaceThread → RaceState
  | .fire =>
      match st.fire_pc with
      | .checkFlag =>
          if st.finished_flag then { st with fire_pc := .done }
          else { st with fire_pc := .runBody }
      | .runBody => { st with restore_runs := st.restore_runs + 1, fire_pc := .popRegistry }
      | .popRegistry => { st with registry_has_id := false, fire_pc := .done }
      | .done => st
  | .cancel =>
      match st.cancel_pc with
      | .popId =>
          { st with cancel_found := st.registry_has_id, registry_has_id := false,
                    cancel_pc := .finishStep }
      | .finishStep =>
          { st with finished_flag := st.finished_flag || st.cancel_found,
                    cancel_result := some st.cancel_found, cancel_pc := .done }
      | .done => st

/-- Run a whole interleaving (a schedule of thread choices). -/
def run_race (sched : List RaceThread) (st : RaceState) : RaceState :=
  sched.foldl race_step st

/-- Initial state at the moment the timer's interval expires while the id is
registered: nothing cancelled yet, no restore run, both threads at their first
step. -/
def race_init : RaceState :=
  { finished_flag := false
    registry_has_id := true
    restore_runs := 0
    cancel_found := false
    cancel_result := none
    fire_pc := .checkFlag
    cancel_pc := .popId }

/-- The claim's per-race outcome predicate: exactly one of {the fire action
(restore write) executed, cancel returned true} — never both, never
neither. -/
def race_outcome_exclusive (st : RaceState) : Prop :=
  (1 ≤ st.restore_runs ∧ st.cancel_result ≠ some true) ∨
  (st.restore_runs = 0 ∧ st.cancel_result = some true)

/-- Invariant of the race system, established at `race_init` and preserved by
every step. -/
def RaceInv (st : RaceState) : Prop :=
  ((st.fire_pc = .checkFlag ∨ st.fire_pc = .runBody) → st.restore_runs = 0) ∧
  (st.fire_pc = .popRegistry → st.restore_runs = 1) ∧
  (st.fire_pc = .done → st.restore_runs ≤ 1) ∧
  (st.finished_flag = true → st.cancel_result = some true) ∧
  (st.fire_pc = .done → (st.restore_runs = 1 ∨ st.finished_flag = true)) ∧
  (st.cancel_pc ≠ .done → st.finished_flag = false)

theorem race_init_inv : RaceInv race_init := by
  unfold RaceInv race_init
  decide

theorem race_step_inv (st : RaceState) (t : RaceThread) (hinv : RaceInv st) :
    RaceInv (race_step st t) := by
  obtain ⟨f, reg, n, cf, cr, fpc, cpc⟩ := st
  unfold RaceInv at hinv ⊢
  cases t <;> cases fpc <;> cases cpc <;> cases f <;> cases cf <;>
    simp_all [race_step]

theorem run_race_inv (sched : List RaceThread) (st : RaceState) (hinv : RaceInv st) :
    RaceInv (run_race sched st) := by
  induction sched generalizing st with
  | nil => exact hinv
  | cons t ts ih => exact ih (race_step st t) (race_step_inv st t hinv)

/-- C8 counterexample: the schedule where the timer passes its `finished`
check, then the concurrent cancel pops the id (returning `true`), and the
callback body still runs the restore — a completed race in which BOTH the
restore write executed and cancel returned `true`, refuting the claimed
exactly-one-outcome guarantee at a concrete interleaving. -/
theorem race_both_outcomes_possible :
    (run_race [RaceThread.fire, RaceThread.cancel, RaceThread.cancel,
        RaceThread.fire, RaceThread.fire] race_init).fire_pc = FirePC.done ∧
    (run_race [RaceThread.fire, RaceThread.cancel, RaceThread.cancel,
        RaceThread.fire, RaceThread.fire] race_init).cancel_pc = CancelPC.done ∧
    (run_race [RaceThread.fire, RaceThread.cancel, RaceThread.cancel,
        RaceThread.fire, RaceThread.fire] race_init).restore_runs = 1 ∧
    (run_race [RaceThread.fire, RaceThread.cancel, RaceThread.cancel,
        RaceThread.fire, RaceThread.fire] race_init).cancel_result = some true ∧
    ¬ race_outcome_exclusive
        (run_race [RaceThread.fire, RaceThread.cancel, RaceThread.cancel,
            RaceThread.fire, RaceThread.fire] race_init) := by
  refine ⟨rfl, rfl, rfl, rfl, ?_⟩
  intro h
  rcases h with ⟨-, hne⟩ | ⟨hzero, -⟩
  · exact hne rfl
  · exact absurd hzero (by decide)

/-- C8 amended: in every interleaving of `cancel_timed_message` with the
timer's natural firing, the fire action executes at most once, and in every
completed race at least one of {restore executed, cancel returned true}
occurs — but the two outcomes are not mutually exclusive (see the
counterexample: cancel can return true while the fire callback, already past
its `finished`-event check, still runs the restore). -/
theorem race_fire_at_most_once_and_not_neither (sched : List RaceThread) :
    (run_race sched race_init).restore_runs ≤ 1 ∧
    ((run_race sched race_init).fire_pc = FirePC.done ∧
        (run_race sched race_init).cancel_pc = CancelPC.done →
      (run_race sched race_init).restore_runs = 1 ∨
        (run_race sched race_init).cancel_result = some true) := by
  have hinv := run_race_inv sched race_init race_init_inv
  obtain ⟨h1, h2, h3, h4, h5, -⟩ := hinv
  constructor
  · cases hpc : (run_race sched race_init).fire_pc
    · have := h1 (Or.inl hpc); omega
    · have := h1 (Or.inr hpc); omega
    · have := h2 hpc; omega
    · exact h3 hpc
  · intro hdone
    rcases h5 hdone.1 with h | h
    · exact Or.inl h
    · exact Or.inr (h4 h)

/-- Witness for C8 amended at the schedule where cancel completes before the
timer's check: the restore never runs and cancel returned true. -/
theorem race_fire_at_most_once_and_not_neither_witness :
    (run_race [RaceThread.cancel, RaceThread.cancel, RaceThread.fire]
        race_init).restore_runs ≤ 1 ∧
    ((run_race [RaceThread.cancel, RaceThread.cancel, RaceThread.fire]
        race_init).restore_runs = 1 ∨
      (run_race [RaceThread.cancel, RaceThread.cancel, RaceThread.fire]
          race_init).cancel_result = some true) :=
  ⟨(race_fire_at_most_once_and_not_neither
      [RaceThread.cancel, RaceThread.cancel, RaceThread.fire]).1,
   (race_fire_at_most_once_and_not_neither
      [RaceThread.cancel, RaceThread.cancel, RaceThread.fire]).2 ⟨rfl, rfl⟩⟩

end VestaboardMQTT
